import Mathlib

/-!
Verification development for the rust-scrapper repository.

The repository has two core components:
* `ScraperClient` (src/scraper_client.rs): a bounded-retry HTTP fetcher with
  usage statistics.
* `HolidayProcessor` (src/holiday_processor.rs): an HTML-table extractor that
  turns a parsed document into a list of `Holiday` records.

We embed the program shallowly.  Rust `String` values are modelled as
`List Char`, machine integers as `Nat` (the `u64` counters can only be
incremented once per call, so their overflow is unreachable; the `u8`
attempt counter of the fetch loop, whose overflow IS reachable, is modelled
with an explicit `% 256`).  The network and the wall clock are modelled as
explicit oracle parameters.  The HTML parsing library (`scraper` /
`html5ever`) is external to the repository; documents are therefore
modelled at the granularity the program observes them through its four
fixed selectors: the list of `thead th` inner-html strings and, for each
`tbody tr` row, the list of cells, each cell carrying its tag kind, the
inner-html of its `strong` descendants (in document order) and its own
inner-html.
-/

namespace RustScrapper

set_option maxRecDepth 8000

/-! ## Text primitives (str::replace, str::trim, regex whitespace collapse) -/

/-- Unicode White_Space test, as used by `str::trim` and by the `\s` class of
the `regex` crate (both follow the Unicode White_Space property). -/
def isWs (c : Char) : Bool :=
  (9 ≤ c.toNat && c.toNat ≤ 13) || c.toNat == 32 || c.toNat == 133 ||
    c.toNat == 160 || c.toNat == 0x1680 ||
    (0x2000 ≤ c.toNat && c.toNat ≤ 0x200A) || c.toNat == 0x2028 ||
    c.toNat == 0x2029 || c.toNat == 0x202F || c.toNat == 0x205F ||
    c.toNat == 0x3000

/-- Worker for `replaceStr`.  `skip` counts characters of a needle
occurrence that was already matched and replaced and must still be
consumed without being emitted (this realizes the leftmost,
non-overlapping scan of Rust `str::replace`). -/
def replaceAux (needle repl : List Char) : Nat → List Char → List Char
  | _, [] => []
  | skip + 1, _ :: cs => replaceAux needle repl skip cs
  | 0, c :: cs =>
    if needle.isPrefixOf (c :: cs) then
      repl ++ replaceAux needle repl (needle.length - 1) cs
    else
      c :: replaceAux needle repl 0 cs

/-- Embedding of Rust `str::replace needle repl`: replace the leftmost,
non-overlapping occurrences of `needle`, scanning left to right.  All
needles used by the program are non-empty. -/
def replaceStr (needle repl : List Char) (s : List Char) : List Char :=
  replaceAux needle repl 0 s

/-- Substring occurrence test (used to state when `replaceStr` is inert). -/
def containsTok (needle : List Char) (s : List Char) : Bool :=
  match s with
  | [] => needle.isEmpty
  | _ :: cs => needle.isPrefixOf s || containsTok needle cs

/-- Worker for `collapseWs`.  `inRun` records whether the previous
character belonged to a whitespace run whose single replacement space has
already been emitted. -/
def collapseAux : Bool → List Char → List Char
  | _, [] => []
  | inRun, c :: cs =>
    if isWs c then
      if inRun then collapseAux true cs else ' ' :: collapseAux true cs
    else c :: collapseAux false cs

/-- Embedding of `re.replace_all(s, " ")` for the regex `\s+`: every maximal
run of whitespace characters becomes a single space. -/
def collapseWs (s : List Char) : List Char :=
  collapseAux false s

/-- Analysis predicate: the first character, if any, is not whitespace. -/
def headNotWs (s : List Char) : Bool :=
  match s.head? with
  | some c => !isWs c
  | none => true

/-- Analysis predicate characterizing strings in collapsed form: every
whitespace character is a plain space and is not followed by another
whitespace character. -/
def collapsedB : List Char → Bool
  | [] => true
  | c :: cs => (!isWs c || (c == ' ' && headNotWs cs)) && collapsedB cs

/-- Removal of trailing whitespace (the right half of `str::trim`). -/
def trimRight (s : List Char) : List Char :=
  match s with
  | [] => []
  | c :: cs =>
    let t := trimRight cs
    if t = [] ∧ isWs c then [] else c :: t

/-- Embedding of Rust `str::trim`: strip leading and trailing whitespace. -/
def trimChars (s : List Char) : List Char :=
  trimRight (s.dropWhile isWs)

/-- The inline substitution chain applied to every extracted inner-html
fragment in `HolidayProcessor::run`:
`.replace("<br>", " ").replace("&amp;", "&").replace("&nbsp;", " ")`. -/
def substEntities (s : List Char) : List Char :=
  replaceStr ("&nbsp;".toList) (" ".toList)
    (replaceStr ("&amp;".toList) ("&".toList)
      (replaceStr ("<br>".toList) (" ".toList) s))

/-- Normalization applied to a holiday name before it is stored:
entity/break substitution followed by `trim` (no whitespace collapsing). -/
def normalizeName (s : List Char) : List Char :=
  trimChars (substEntities s)

/-- Normalization applied to a date cell before it is stored: entity/break
substitution, then `re.replace_all(.., " ")` for `\s+`, then `trim`. -/
def normalizeDate (s : List Char) : List Char :=
  trimChars (collapseWs (substEntities s))

/-! ## Extractor data model (src/holiday_processor.rs) -/

/-- The `Holiday` struct of holiday_processor.rs: field order `year`,
`date`, `name`, all strings. -/
structure Holiday where
  year : List Char
  date : List Char
  name : List Char
deriving DecidableEq

/-- One cell of a `tbody tr` row, at the granularity the program observes
it: whether the cell is a `th` (versus a `td`), the inner-html of each
`strong` descendant of the cell in document order, and the cell's own
inner-html.  The selector `th strong` matches exactly the strong
descendants of `th` cells; the selector `td` matches the `td` cells. -/
structure Cell where
  isTh : Bool
  strongs : List (List Char)
  inner : List Char
deriving DecidableEq

/-- A parsed document, at the granularity of the four selectors used by
`HolidayProcessor::run`: the inner-htmls of all `thead th` matches in
document order, and the `tbody tr` rows, each a list of cells. -/
structure Document where
  headThs : List (List Char)
  rows : List (List Cell)
deriving DecidableEq

/-- The year-label sequence: `document.select("thead th").skip(1)`, each
label being the cell's `inner_html().trim()`. -/
def yearLabels (doc : Document) : List (List Char) :=
  (doc.headThs.drop 1).map trimChars

/-- The result of `row.select(&name_selector).next()` for the selector
`th strong`: the first strong element nested in a `th` cell of the row,
in document order, if any. -/
def rowName (r : List Cell) : Option (List Char) :=
  ((r.map fun c => if c.isTh then c.strongs else []).flatten).head?

/-- The result of `row.select(&date_selector)` for the selector `td`: the
inner-htmls of the row's `td` cells in document order. -/
def rowDates (r : List Cell) : List (List Char) :=
  (r.filter fun c => !c.isTh).map fun c => c.inner

/-- The records contributed by one body row: nothing when the row has no
`th strong` match; otherwise one record per (data cell, year label) pair,
walking the two sequences in lockstep and stopping at the shorter one. -/
def processRow (years : List (List Char)) (r : List Cell) : List Holiday :=
  match rowName r with
  | none => []
  | some nameHtml =>
    let nm := substEntities nameHtml
    (List.zip (rowDates r) years).map fun p =>
      { year := p.2, date := normalizeDate p.1, name := trimChars nm }

/-- All records pushed by one pass of the row loop of
`HolidayProcessor::run`, in document order. -/
def extractHolidays (doc : Document) : List Holiday :=
  (doc.rows.map (processRow (yearLabels doc))).flatten

/-! ## Error type and the fallible shell of `run` -/

/-- The `ScraperError` enum of errors.rs; each variant carries its
formatted message. -/
inductive ScraperError where
  | RegexError (msg : String)
  | SelectorError (msg : String)
  | FetchError (msg : String)
  | SqliteConnectionError (msg : String)
  | CustomError (msg : String)
deriving DecidableEq

/-- Modelled from the spec: validity of a structural query string for the
external CSS-selector compiler (`scraper::Selector::parse`), restricted to
the fragment the program uses — descendant selectors written as
space-separated, non-empty, lowercase tag names.  The spec notes the
recognized set of structural queries is fixed and known-valid. -/
def selectorOk (s : String) : Bool :=
  (s.toList.splitOn ' ').all fun w =>
    !w.isEmpty && w.all fun c => 'a' ≤ c && c ≤ 'z'

/-- Modelled from the spec: `Selector::parse` succeeds on a valid
structural query and otherwise yields the `SelectorError` condition, as in
holiday_processor.rs lines 30-37. -/
def selParse (s : String) : Except ScraperError Unit :=
  if selectorOk s then Except.ok () else Except.error (ScraperError.SelectorError s)

/-- Modelled from the spec: compilation of the one fixed regular
expression `\s+` used by `run`; the pattern is constant and known-valid,
an invalid pattern would surface as the `RegexError` condition. -/
def regexChk (p : String) : Except ScraperError Unit :=
  if p.isEmpty then Except.error (ScraperError.RegexError p) else Except.ok ()

/-- Embedding of `HolidayProcessor::run` on an already-parsed document:
compile the four selectors and the whitespace regex, then extract.  The
document tree itself is produced by the external, total HTML parser. -/
def run (doc : Document) : Except ScraperError (List Holiday) :=
  (selParse "thead th").bind fun _ =>
    (selParse "tbody tr").bind fun _ =>
      (selParse "th strong").bind fun _ =>
        (selParse "td").bind fun _ =>
          (regexChk "\\s+").map fun _ => extractHolidays doc

/-- The `HolidayProcessor` struct: the raw input (held here in parsed
form) and the accumulated `holidays` vector. -/
structure HolidayProcessor where
  raw : Document
  holidays : List Holiday
deriving DecidableEq

/-- `HolidayProcessor::new`: stores the input and starts with an empty
holiday vector. -/
def HolidayProcessor.new (doc : Document) : HolidayProcessor :=
  { raw := doc, holidays := [] }

/-- Stateful embedding of `run`: on success the extracted records are
pushed onto the processor's existing `holidays` vector (the vector is not
cleared first); on error the state is unchanged (selector compilation
happens before any push). -/
def runS (p : HolidayProcessor) : HolidayProcessor × Except ScraperError Unit :=
  match run p.raw with
  | Except.ok rs => ({ raw := p.raw, holidays := p.holidays ++ rs }, Except.ok ())
  | Except.error e => (p, Except.error e)

/-! ## Fetcher model (src/scraper_client.rs)

The network is an oracle mapping the attempt number (the value of the
`attempts` counter when the attempt is made) to the outcome of that
attempt.  The per-attempt wall clock and the retry sleep are not part of
the control flow and are not modelled; the elapsed-time string that is
formatted into the exhaustion message is passed in as a parameter. -/

deriving instance DecidableEq for Except

/-- What one `self.client.get(url).send().await` (plus, on a success
status, the `response.text().await`) can produce: a transport error from
`send`, a response with a non-success status, or a success-status response
whose body read yields either the body text or a transport error. -/
inductive AttemptOutcome where
  | sendErr (msg : String)
  | badStatus (code : Nat)
  | okStatus (body : Except String String)
deriving DecidableEq

/-- The `ScraperClientStats` struct: three `u64` counters (modelled as
`Nat`; each fetch call increments each counter at most once, so `u64`
wraparound is unreachable in any execution). -/
structure ScraperClientStats where
  total_requests : Nat
  successful_requests : Nat
  failed_requests : Nat
deriving DecidableEq

/-- The `ScraperClient` struct fields that carry program state:
`request_id` (`u64`, modelled as `Nat`), the statistics, and
`max_retries` (`u8`: a value in `0..256`).  The reqwest `Client`, the
timeout and the retry delay have no bearing on the control flow modelled
here. -/
structure ScraperClient where
  request_id : Nat
  stats : ScraperClientStats
  max_retries : Nat
deriving DecidableEq

/-- `ScraperClient::record_success`: `total_requests += 1` and
`successful_requests += 1`. -/
def record_success (st : ScraperClient) : ScraperClient :=
  { st with stats :=
      { st.stats with
          total_requests := st.stats.total_requests + 1,
          successful_requests := st.stats.successful_requests + 1 } }

/-- `ScraperClient::record_failure`: `total_requests += 1` and
`failed_requests += 1`. -/
def record_failure (st : ScraperClient) : ScraperClient :=
  { st with stats :=
      { st.stats with
          total_requests := st.stats.total_requests + 1,
          failed_requests := st.stats.failed_requests + 1 } }

/-- How the retry loop of `fetch_url` is exited: an early `return Ok(body)`
(after a success status and a successful body read), an early `return` of
the body-read error via the `?` operator, or falling out of the `while`
with the final value of the `attempts` counter. -/
inductive LoopExit where
  | success (attempts : Nat) (body : String)
  | bodyErr (attempts : Nat) (msg : String)
  | exhausted (attempts : Nat)
deriving DecidableEq

/-- The `while attempts <= self.max_retries` loop of `fetch_url`.  The
`attempts` counter is a `u8` in the source (its type is forced by the
comparison with `max_retries: u8`), so the increment is taken modulo 256 —
this is the release-profile wrapping semantics; a debug build would panic
at the same increment.  `fuel` bounds the number of loop iterations the
model executes; the loop itself has no such bound. -/
def fetchLoop (oracle : Nat → AttemptOutcome) (max_retries : Nat) :
    Nat → Nat → Option LoopExit
  | _, 0 => none
  | attempts, fuel + 1 =>
    if attempts ≤ max_retries then
      let a := (attempts + 1) % 256
      match oracle a with
      | AttemptOutcome.okStatus (Except.ok body) => some (LoopExit.success a body)
      | AttemptOutcome.okStatus (Except.error e) => some (LoopExit.bodyErr a e)
      | AttemptOutcome.badStatus _ => fetchLoop oracle max_retries a fuel
      | AttemptOutcome.sendErr _ => fetchLoop oracle max_retries a fuel
    else some (LoopExit.exhausted attempts)

/-- The message of the exhaustion error:
`format!("Failed to fetch page after {n} attempts in {elapsed}")`. -/
def exhaustedMsg (attempts : Nat) (elapsed : String) : String :=
  "Failed to fetch page after " ++ toString attempts ++ " attempts in " ++ elapsed

/-- Embedding of `ScraperClient::fetch_url`: bump `request_id`, run the
retry loop, then according to the exit either record a success and return
the body, propagate the body-read error (note: with no statistics update),
or record a failure and return the exhaustion `CustomError`.  `none` means
the loop had not terminated within `fuel` iterations. -/
def fetch_url (st : ScraperClient) (oracle : Nat → AttemptOutcome)
    (elapsed : String) (fuel : Nat) :
    Option (ScraperClient × Except ScraperError String) :=
  match fetchLoop oracle st.max_retries 0 fuel with
  | none => none
  | some (LoopExit.success _ body) =>
      some (record_success { st with request_id := st.request_id + 1 }, Except.ok body)
  | some (LoopExit.bodyErr _ e) =>
      some ({ st with request_id := st.request_id + 1 },
        Except.error (ScraperError.FetchError e))
  | some (LoopExit.exhausted n) =>
      some (record_failure { st with request_id := st.request_id + 1 },
        Except.error (ScraperError.CustomError (exhaustedMsg n elapsed)))

/-- Recognizer of the exhaustion condition among `ScraperError` values:
`fetch_url` signals it through the `CustomError` variant, which no other
code path of the program constructs. -/
def isFetchExhausted (e : ScraperError) : Bool :=
  match e with
  | ScraperError.CustomError _ => true
  | _ => false

/-- A target that fails every attempt (here with HTTP status 500). -/
def allFailOracle : Nat → AttemptOutcome :=
  fun _ => AttemptOutcome.badStatus 500

/-- A target whose first attempt returns a success status but whose body
read fails at the transport level. -/
def bodyFailOracle : Nat → AttemptOutcome :=
  fun _ => AttemptOutcome.okStatus (Except.error "connection reset while reading body")

/-- A target that fails attempts other than `k` and returns a success
status with body `body` on attempt `k`. -/
def succeedAtOracle (k : Nat) (body : String) : Nat → AttemptOutcome :=
  fun i => if i = k then AttemptOutcome.okStatus (Except.ok body)
           else AttemptOutcome.badStatus 503

/-! ## Lemmas about the retry loop -/

/-- Against a permanently failing target with `max_retries = R ≤ 254`, the
retry loop falls through with the attempt counter at `R + 1`, given enough
fuel; the `% 256` never wraps because the counter stays below 256. -/
theorem fetchLoop_allFail (R : Nat) (hR : R ≤ 254) :
    ∀ (fuel a : Nat), a ≤ R + 1 → R + 2 - a ≤ fuel →
      fetchLoop allFailOracle R a fuel = some (LoopExit.exhausted (R + 1)) := by
  intro fuel
  induction fuel with
  | zero => intro a ha hf; omega
  | succ n ih =>
    intro a ha hf
    by_cases hle : a ≤ R
    · have hmod : (a + 1) % 256 = a + 1 := Nat.mod_eq_of_lt (by omega)
      simp only [fetchLoop, hle, if_true, if_pos, allFailOracle, hmod]
      exact ih (a + 1) (by omega) (by omega)
    · have ha1 : a = R + 1 := by omega
      simp [fetchLoop, hle, ha1]

/-- Against a target whose first success status is on attempt `k`
(`1 ≤ k ≤ R + 1`), the retry loop exits on attempt `k` with the body,
making no further attempts. -/
theorem fetchLoop_succeedAt (R k : Nat) (body : String) (hR : R ≤ 254)
    (hk : k ≤ R + 1) :
    ∀ (fuel a : Nat), a < k → k - a ≤ fuel →
      fetchLoop (succeedAtOracle k body) R a fuel =
        some (LoopExit.success k body) := by
  intro fuel
  induction fuel with
  | zero => intro a ha hf; omega
  | succ n ih =>
    intro a ha hf
    have hle : a ≤ R := by omega
    have hmod : (a + 1) % 256 = a + 1 := Nat.mod_eq_of_lt (by omega)
    by_cases hak : a + 1 = k
    · have hmodk : k % 256 = k := Nat.mod_eq_of_lt (by omega)
      simp [fetchLoop, hle, succeedAtOracle, hak, hmodk]
    · simp only [fetchLoop, hle, if_true, if_pos, succeedAtOracle, hmod,
        if_neg hak]
      exact ih (a + 1) (by omega) (by omega)

/-- With `max_retries = 255` the attempt counter (a `u8`) wraps before the
loop condition can ever fail, so the loop never exits against a
permanently failing target, whatever the fuel. -/
theorem fetchLoop_wrap_diverges :
    ∀ (fuel a : Nat), a ≤ 255 → fetchLoop allFailOracle 255 a fuel = none := by
  intro fuel
  induction fuel with
  | zero => intro a _; rfl
  | succ n ih =>
    intro a ha
    have hle : a ≤ 255 := ha
    simp only [fetchLoop, hle, if_true, if_pos, allFailOracle]
    exact ih ((a + 1) % 256) (Nat.le_of_lt_succ (Nat.mod_lt _ (by omega)))

/-! ## Claim theorems for the Fetcher -/

/-- C1 counterexample: on a call whose first attempt returns a success
status but whose body read fails, `fetch_url` returns the `FetchError`
variant (the `?` on `response.text().await`), which is not the
exhaustion condition — so `FetchExhausted` is not the only fatal outcome
of `fetch`. -/
theorem fetch_fatal_not_only_exhausted :
    fetch_url ⟨0, ⟨0, 0, 0⟩, 3⟩ bodyFailOracle "1s" 10 =
      some (⟨1, ⟨0, 0, 0⟩, 3⟩,
        Except.error
          (ScraperError.FetchError "connection reset while reading body")) ∧
    isFetchExhausted
      (ScraperError.FetchError "connection reset while reading body") = false := by
  exact ⟨rfl, rfl⟩

/-- C1 (amended): every error returned by `fetch_url` is either the
exhaustion condition — a `CustomError` carrying an attempt count and the
elapsed time — or a `FetchError` propagated from reading the body of a
success-status response; no other fatal outcome exists. -/
theorem fetch_error_kinds (st : ScraperClient) (oracle : Nat → AttemptOutcome)
    (elapsed : String) (fuel : Nat) (st2 : ScraperClient) (e : ScraperError)
    (h : fetch_url st oracle elapsed fuel = some (st2, Except.error e)) :
    (∃ n, e = ScraperError.CustomError (exhaustedMsg n elapsed)) ∨
    (∃ m, e = ScraperError.FetchError m) := by
  unfold fetch_url at h
  cases hfl : fetchLoop oracle st.max_retries 0 fuel with
  | none => rw [hfl] at h; simp at h
  | some ex =>
    cases ex with
    | success n body => rw [hfl] at h; simp at h
    | bodyErr n m =>
      rw [hfl] at h
      simp only [Option.some.injEq, Prod.mk.injEq] at h
      exact Or.inr ⟨m, (Except.error.inj h.2).symm⟩
    | exhausted n =>
      rw [hfl] at h
      simp only [Option.some.injEq, Prod.mk.injEq] at h
      exact Or.inl ⟨n, (Except.error.inj h.2).symm⟩

/-- C1 witness: instantiating `fetch_error_kinds` on a concrete
all-failing run with `max_retries = 3`. -/
theorem fetch_error_kinds_witness :
    (∃ n, ScraperError.CustomError (exhaustedMsg 4 "1s") =
        ScraperError.CustomError (exhaustedMsg n "1s")) ∨
    (∃ m, ScraperError.CustomError (exhaustedMsg 4 "1s") =
        ScraperError.FetchError m) :=
  fetch_error_kinds ⟨0, ⟨0, 0, 0⟩, 3⟩ allFailOracle "1s" 10 ⟨1, ⟨1, 0, 1⟩, 3⟩
    (ScraperError.CustomError (exhaustedMsg 4 "1s")) (by decide)

/-- C2 counterexample: a call whose success-status body read fails returns
with the statistics completely untouched (no update at all, where the claim
demands exactly one), while `request_id` — a remaining client state field
the claim says is unchanged — has incremented from 0 to 1. -/
theorem fetch_stats_update_skipped :
    fetch_url ⟨0, ⟨0, 0, 0⟩, 3⟩ bodyFailOracle "1s" 10 =
      some (⟨1, ⟨0, 0, 0⟩, 3⟩,
        Except.error
          (ScraperError.FetchError "connection reset while reading body")) := by
  exact rfl

/-- C2 (amended): on every call that returns, `request_id` increments by 1
and `max_retries` is unchanged; a call returning `Ok` records exactly one
success (total and successful counters +1, failed unchanged), a call
returning the exhaustion error records exactly one failure (total and
failed counters +1, successful unchanged), and a call returning the
body-read `FetchError` performs no statistics update at all. -/
theorem fetch_stats_update (st : ScraperClient) (oracle : Nat → AttemptOutcome)
    (elapsed : String) (fuel : Nat) (st2 : ScraperClient)
    (r : Except ScraperError String)
    (h : fetch_url st oracle elapsed fuel = some (st2, r)) :
    st2.request_id = st.request_id + 1 ∧ st2.max_retries = st.max_retries ∧
    (match r with
     | Except.ok _ =>
         st2.stats.total_requests = st.stats.total_requests + 1 ∧
         st2.stats.successful_requests = st.stats.successful_requests + 1 ∧
         st2.stats.failed_requests = st.stats.failed_requests
     | Except.error (ScraperError.FetchError _) => st2.stats = st.stats
     | Except.error _ =>
         st2.stats.total_requests = st.stats.total_requests + 1 ∧
         st2.stats.failed_requests = st.stats.failed_requests + 1 ∧
         st2.stats.successful_requests = st.stats.successful_requests) := by
  unfold fetch_url at h
  cases hfl : fetchLoop oracle st.max_retries 0 fuel with
  | none => rw [hfl] at h; simp at h
  | some ex =>
    cases ex with
    | success n body =>
      rw [hfl] at h
      simp only [Option.some.injEq, Prod.mk.injEq] at h
      obtain ⟨h1, h2⟩ := h
      subst h1; subst h2
      exact ⟨rfl, rfl, rfl, rfl, rfl⟩
    | bodyErr n m =>
      rw [hfl] at h
      simp only [Option.some.injEq, Prod.mk.injEq] at h
      obtain ⟨h1, h2⟩ := h
      subst h1; subst h2
      exact ⟨rfl, rfl, rfl⟩
    | exhausted n =>
      rw [hfl] at h
      simp only [Option.some.injEq, Prod.mk.injEq] at h
      obtain ⟨h1, h2⟩ := h
      subst h1; subst h2
      exact ⟨rfl, rfl, rfl, rfl, rfl⟩

/-- C2 witness: instantiating `fetch_stats_update` on a concrete
all-failing run with `max_retries = 3` (the exhaustion branch: counters
go from (0,0,0) to (1,0,1) and `request_id` from 0 to 1). -/
theorem fetch_stats_update_witness :
    1 = 0 + 1 ∧ 3 = 3 ∧ (1 = 0 + 1 ∧ 1 = 0 + 1 ∧ 0 = 0) :=
  fetch_stats_update ⟨0, ⟨0, 0, 0⟩, 3⟩ allFailOracle "1s" 10 ⟨1, ⟨1, 0, 1⟩, 3⟩
    (Except.error (ScraperError.CustomError (exhaustedMsg 4 "1s"))) (by decide)

/-- C3 counterexample: with `max_retries = 255` (the largest `u8` value)
the attempt counter wraps to 0 after the 256th attempt begins, so the
loop condition `attempts <= max_retries` never fails: even given fuel for
300 iterations — more than the 257 needed if the claimed `R + 1 = 256`
bound held — the loop has not exited, and `fetch_url` never returns the
exhaustion error (a debug build would instead panic at the wrapping
increment). -/
theorem fetch_retry_bound_overflow :
    fetch_url ⟨0, ⟨0, 0, 0⟩, 255⟩ allFailOracle "2s" 300 = none := by decide

/-- C3 (amended): for `max_retries = R ≤ 254` a permanently failing
target yields exactly `R + 1` attempts and then the exhaustion error with
one failure recorded; and against a target whose first success status is
on attempt `k ≤ R + 1`, the loop stops at attempt `k` with the body,
making no further attempts. -/
theorem fetch_retry_bound (R : Nat) (elapsed : String) (fuel : Nat)
    (st : ScraperClient) (hR : st.max_retries = R) (hR254 : R ≤ 254)
    (hfuel : R + 2 ≤ fuel) :
    fetch_url st allFailOracle elapsed fuel =
      some (record_failure { st with request_id := st.request_id + 1 },
        Except.error (ScraperError.CustomError (exhaustedMsg (R + 1) elapsed))) ∧
    fetchLoop allFailOracle R 0 fuel = some (LoopExit.exhausted (R + 1)) ∧
    (∀ k body, 1 ≤ k → k ≤ R + 1 →
      fetchLoop (succeedAtOracle k body) R 0 fuel =
        some (LoopExit.success k body)) := by
  have hall := fetchLoop_allFail R hR254 fuel 0 (by omega) (by omega)
  refine ⟨?_, hall, ?_⟩
  · unfold fetch_url
    rw [hR, hall]
  · intro k body hk1 hk2
    exact fetchLoop_succeedAt R k body hR254 hk2 fuel 0 (by omega) (by omega)

/-- C3 witness: with the configuration the program actually builds
(`max_retries = 3`), an all-failing target exhausts after exactly 4
attempts and a target succeeding on attempt 2 stops there. -/
theorem fetch_retry_bound_witness :
    fetchLoop allFailOracle 3 0 10 = some (LoopExit.exhausted 4) ∧
    fetchLoop (succeedAtOracle 2 "body") 3 0 10 =
      some (LoopExit.success 2 "body") :=
  ⟨(fetch_retry_bound 3 "2s" 10 ⟨0, ⟨0, 0, 0⟩, 3⟩ rfl (by decide) (by decide)).2.1,
   (fetch_retry_bound 3 "2s" 10 ⟨0, ⟨0, 0, 0⟩, 3⟩ rfl (by decide) (by decide)).2.2
     2 "body" (by decide) (by decide)⟩

/-- C10: any completed `fetch_url` call preserves the invariant
`total_requests = successful_requests + failed_requests` and never
decrements any of the three counters (the statistics are only touched by
`record_success` / `record_failure`, which increment). -/
theorem fetch_stats_invariant (st : ScraperClient)
    (oracle : Nat → AttemptOutcome) (elapsed : String) (fuel : Nat)
    (st2 : ScraperClient) (r : Except ScraperError String)
    (h : fetch_url st oracle elapsed fuel = some (st2, r)) :
    (st.stats.total_requests =
        st.stats.successful_requests + st.stats.failed_requests →
      st2.stats.total_requests =
        st2.stats.successful_requests + st2.stats.failed_requests) ∧
    st.stats.total_requests ≤ st2.stats.total_requests ∧
    st.stats.successful_requests ≤ st2.stats.successful_requests ∧
    st.stats.failed_requests ≤ st2.stats.failed_requests := by
  unfold fetch_url at h
  cases hfl : fetchLoop oracle st.max_retries 0 fuel with
  | none => rw [hfl] at h; simp at h
  | some ex =>
    cases ex with
    | success n body =>
      rw [hfl] at h
      simp only [Option.some.injEq, Prod.mk.injEq] at h
      obtain ⟨h1, h2⟩ := h
      subst h1
      refine ⟨fun hinv => ?_, ?_, ?_, ?_⟩ <;>
        simp [record_success] <;> omega
    | bodyErr n m =>
      rw [hfl] at h
      simp only [Option.some.injEq, Prod.mk.injEq] at h
      obtain ⟨h1, h2⟩ := h
      subst h1
      exact ⟨fun hinv => hinv, Nat.le_refl _, Nat.le_refl _, Nat.le_refl _⟩
    | exhausted n =>
      rw [hfl] at h
      simp only [Option.some.injEq, Prod.mk.injEq] at h
      obtain ⟨h1, h2⟩ := h
      subst h1
      refine ⟨fun hinv => ?_, ?_, ?_, ?_⟩ <;>
        simp [record_failure] <;> omega

/-- C10 witness: instantiating `fetch_stats_invariant` on a concrete
all-failing run starting from zeroed statistics. -/
theorem fetch_stats_invariant_witness :
    (0 = 0 + 0 → 1 = 0 + 1) ∧ 0 ≤ 1 ∧ 0 ≤ 0 ∧ 0 ≤ 1 :=
  fetch_stats_invariant ⟨0, ⟨0, 0, 0⟩, 3⟩ allFailOracle "1s" 10
    ⟨1, ⟨1, 0, 1⟩, 3⟩
    (Except.error (ScraperError.CustomError (exhaustedMsg 4 "1s"))) (by decide)

/-! ## Lemmas about the row extraction -/

/-- A row with a `th strong` match contributes one record per
(data cell, year) pair of the lockstep walk. -/
theorem processRow_some (years : List (List Char)) (r : List Cell)
    (nm : List Char) (h : rowName r = some nm) :
    processRow years r = (List.zip (rowDates r) years).map
      fun p => { year := p.2, date := normalizeDate p.1,
                 name := trimChars (substEntities nm) } := by
  unfold processRow
  rw [h]

/-- A row without a `th strong` match contributes no records. -/
theorem processRow_none (years : List (List Char)) (r : List Cell)
    (h : rowName r = none) : processRow years r = [] := by
  unfold processRow
  rw [h]

/-! ## Claim theorems for the Extractor -/

/-- C5: one parse pass never returns an error — the only error sources
are the compilation of the four fixed, valid selectors and of the fixed
whitespace regex — and the empty document (the parse of empty input
markup, which contains no `thead th` and no `tbody tr`) yields exactly
zero records. -/
theorem run_never_errors (doc : Document) :
    run doc = Except.ok (extractHolidays doc) ∧
    run { headThs := [], rows := [] } = Except.ok ([] : List Holiday) :=
  ⟨rfl, rfl⟩

/-- C4: a body row with a present name element and `C` data cells, against
`H` year labels, contributes exactly `min C H` records, and the `i`-th
record's year is the `i`-th year label. -/
theorem row_lockstep (years : List (List Char)) (r : List Cell)
    (nm : List Char) (h : rowName r = some nm) :
    (processRow years r).length = min (rowDates r).length years.length ∧
    ∀ i, i < (processRow years r).length →
      ((processRow years r)[i]?).map Holiday.year = years[i]? := by
  rw [processRow_some years r nm h]
  constructor
  · simp
  · intro i hi
    simp only [List.length_map, List.length_zip] at hi
    have hd : i < (rowDates r).length := by omega
    have hy : i < years.length := by omega
    have hz : (List.zip (rowDates r) years)[i]? =
        some ((rowDates r)[i], years[i]) := by
      rw [List.getElem?_zip_eq_some]
      exact ⟨List.getElem?_eq_getElem hd, List.getElem?_eq_getElem hy⟩
    rw [List.getElem?_map, hz]
    simp [List.getElem?_eq_getElem hy]

/-- C4 witness: a row with 2 data cells against 3 year labels contributes
exactly `min 2 3 = 2` records, and record 1 carries year label 1. -/
theorem row_lockstep_witness :
    (processRow ["2023".toList, "2024".toList, "2025".toList]
        [⟨true, ["N".toList], "N".toList⟩, ⟨false, [], "a".toList⟩,
         ⟨false, [], "b".toList⟩]).length = min 2 3 ∧
    ((processRow ["2023".toList, "2024".toList, "2025".toList]
        [⟨true, ["N".toList], "N".toList⟩, ⟨false, [], "a".toList⟩,
         ⟨false, [], "b".toList⟩])[1]?).map Holiday.year =
      ["2023".toList, "2024".toList, "2025".toList][1]? :=
  ⟨(row_lockstep ["2023".toList, "2024".toList, "2025".toList]
      [⟨true, ["N".toList], "N".toList⟩, ⟨false, [], "a".toList⟩,
       ⟨false, [], "b".toList⟩] ("N".toList) (by decide)).1,
   (row_lockstep ["2023".toList, "2024".toList, "2025".toList]
      [⟨true, ["N".toList], "N".toList⟩, ⟨false, [], "a".toList⟩,
       ⟨false, [], "b".toList⟩] ("N".toList) (by decide)).2 1 (by decide)⟩

/-- C8 counterexample: a row whose FIRST cell is a `th` without any
emphasized element, but whose second cell is a `th` containing one, is
not skipped: the selector `th strong` matches anywhere in the row, so the
row contributes a record named from the second cell — the claim predicts
zero records for this row. -/
theorem row_name_not_first_cell :
    extractHolidays
      ⟨["H".toList, "2023".toList],
       [[⟨true, [], "Region".toList⟩, ⟨true, ["X".toList], "X".toList⟩,
         ⟨false, [], "Jan 1".toList⟩]]⟩ =
      [{ year := "2023".toList, date := "Jan 1".toList, name := "X".toList }] := by
  decide

/-- C8 (amended): the entity name of a row's records is the first
emphasized element nested in ANY `th` cell of the row in document order,
and if no `th` cell anywhere in the row contains an emphasized element,
the row contributes zero records.  (Only this direction holds: a named
row can also contribute zero records for other reasons, e.g. when it has
no data cells or the table has no year labels.) -/
theorem row_name_policy (years : List (List Char)) (r : List Cell) :
    ((∀ c ∈ r, c.isTh = true → c.strongs = []) → processRow years r = []) ∧
    (∀ nm, rowName r = some nm → ∀ rec ∈ processRow years r,
      rec.name = normalizeName nm) := by
  constructor
  · intro hno
    have hrn : rowName r = none := by
      unfold rowName
      rw [List.head?_eq_none_iff, List.flatten_eq_nil_iff]
      intro l hl
      rw [List.mem_map] at hl
      obtain ⟨c, hc, rfl⟩ := hl
      by_cases hth : c.isTh
      · simp [hth, hno c hc hth]
      · simp [hth]
    exact processRow_none years r hrn
  · intro nm hnm rec hrec
    rw [processRow_some years r nm hnm] at hrec
    rw [List.mem_map] at hrec
    obtain ⟨p, hp, rfl⟩ := hrec
    rfl

/-- C8 witness: a row whose only `th` cell has no emphasized element
yields no records, and a row with name element `N` names its record
`normalizeName N`. -/
theorem row_name_policy_witness :
    processRow ["2023".toList]
      [⟨true, [], "x".toList⟩, ⟨false, [], "J".toList⟩] = [] ∧
    ({ year := "2023".toList, date := "J".toList, name := "N".toList } :
      Holiday).name = normalizeName ("N".toList) :=
  ⟨(row_name_policy ["2023".toList]
      [⟨true, [], "x".toList⟩, ⟨false, [], "J".toList⟩]).1 (by decide),
   (row_name_policy ["2023".toList]
      [⟨true, ["N".toList], "N".toList⟩, ⟨false, [], "J".toList⟩]).2
     ("N".toList) (by decide)
     { year := "2023".toList, date := "J".toList, name := "N".toList }
     (by decide)⟩

/-- C7 counterexample: a table whose second header cell is
whitespace-only yields a record whose `year` is the empty string — the
code never checks the normalized label for emptiness. -/
theorem record_year_empty :
    (extractHolidays
      ⟨["H".toList, "  ".toList],
       [[⟨true, ["N".toList], "N".toList⟩,
         ⟨false, [], "Jan".toList⟩]]⟩).map Holiday.year = [[]] := by
  decide

/-- C7 (amended): a record's `year` is non-empty provided every year
label of the table is non-empty, and its `entity_name` is non-empty
provided every row's normalized name text is non-empty (the code itself
enforces neither); a data cell that is empty text still produces a
record, with an empty `date_text`. -/
theorem record_fields_amended :
    (∀ (doc : Document) (rec : Holiday), rec ∈ extractHolidays doc →
      ((∀ y ∈ yearLabels doc, y ≠ ([] : List Char)) → rec.year ≠ []) ∧
      ((∀ row ∈ doc.rows, ∀ nm, rowName row = some nm →
          normalizeName nm ≠ ([] : List Char)) → rec.name ≠ [])) ∧
    extractHolidays
      ⟨["H".toList, "2023".toList],
       [[⟨true, ["N".toList], "N".toList⟩, ⟨false, [], []⟩]]⟩ =
      [{ year := "2023".toList, date := [], name := "N".toList }] := by
  constructor
  · intro doc rec hmem
    unfold extractHolidays at hmem
    rw [List.mem_flatten] at hmem
    obtain ⟨l, hl, hrl⟩ := hmem
    rw [List.mem_map] at hl
    obtain ⟨row, hrow, rfl⟩ := hl
    cases hrn : rowName row with
    | none =>
      rw [processRow_none _ _ hrn] at hrl
      exact absurd hrl (List.not_mem_nil _)
    | some nm =>
      rw [processRow_some _ _ _ hrn] at hrl
      rw [List.mem_map] at hrl
      obtain ⟨p, hp, rfl⟩ := hrl
      obtain ⟨d, y⟩ := p
      have hy : y ∈ yearLabels doc := (List.of_mem_zip hp).2
      constructor
      · intro hys
        exact hys y hy
      · intro hnames
        exact hnames row hrow nm hrn
  · decide

/-- C7 witness: instantiating `record_fields_amended` on a concrete table
whose labels and name are non-empty. -/
theorem record_fields_amended_witness :
    ({ year := "2023".toList, date := "Jan".toList, name := "N".toList } :
        Holiday).year ≠ [] ∧
    ({ year := "2023".toList, date := "Jan".toList, name := "N".toList } :
        Holiday).name ≠ [] :=
  ⟨(record_fields_amended.1
      ⟨["H".toList, "2023".toList],
       [[⟨true, ["N".toList], "N".toList⟩, ⟨false, [], "Jan".toList⟩]]⟩
      { year := "2023".toList, date := "Jan".toList, name := "N".toList }
      (by decide)).1 (by decide),
   (record_fields_amended.1
      ⟨["H".toList, "2023".toList],
       [[⟨true, ["N".toList], "N".toList⟩, ⟨false, [], "Jan".toList⟩]]⟩
      { year := "2023".toList, date := "Jan".toList, name := "N".toList }
      (by decide)).2
     (by
       intro row hrow nm hnm
       rw [List.mem_singleton] at hrow
       subst hrow
       rw [show rowName [⟨true, ["N".toList], "N".toList⟩,
             ⟨false, [], "Jan".toList⟩] = some ("N".toList) from rfl] at hnm
       obtain rfl := (Option.some.inj hnm).symm
       decide)⟩

/-- C9 counterexample: running the processor twice on the same one-record
input doubles the stored holiday list — the second invocation grows the
result, because `run` pushes into `self.holidays` without clearing it. -/
theorem run_twice_grows :
    (runS (HolidayProcessor.new
      ⟨["H".toList, "2023".toList],
       [[⟨true, ["N".toList], "N".toList⟩,
         ⟨false, [], "Jan".toList⟩]]⟩)).1.holidays.length = 1 ∧
    (runS (runS (HolidayProcessor.new
      ⟨["H".toList, "2023".toList],
       [[⟨true, ["N".toList], "N".toList⟩,
         ⟨false, [], "Jan".toList⟩]]⟩)).1).1.holidays.length = 2 := by
  exact ⟨rfl, rfl⟩

/-- C9 (amended): each invocation of `run` is deterministic over the
stored input — it always succeeds and appends exactly the extraction of
that input to the accumulated `holidays` vector — but the processor is
not stateless: a repeated invocation appends the same records again
instead of leaving the result unchanged. -/
theorem run_appends_deterministic (p : HolidayProcessor) :
    runS p = ({ raw := p.raw, holidays := p.holidays ++ extractHolidays p.raw },
      Except.ok ()) := rfl

/-! ## Lemmas about the text normalization -/

/-- `str::replace` leaves a string without any occurrence of the needle
unchanged. -/
theorem replace_inert (needle repl : List Char) :
    ∀ s, containsTok needle s = false → replaceStr needle repl s = s := by
  intro s
  induction s with
  | nil => intro _; rfl
  | cons c cs ih =>
    intro h
    simp only [containsTok, Bool.or_eq_false_iff] at h
    have ih2 := ih h.2
    simp only [replaceStr, replaceAux] at ih2 ⊢
    rw [if_neg]
    · rw [ih2]
    · simp [h.1]

/-- The entity/break substitution chain leaves a string free of all three
tokens unchanged. -/
theorem substEntities_inert (s : List Char)
    (h1 : containsTok ("<br>".toList) s = false)
    (h2 : containsTok ("&amp;".toList) s = false)
    (h3 : containsTok ("&nbsp;".toList) s = false) :
    substEntities s = s := by
  unfold substEntities
  rw [replace_inert _ _ s h1, replace_inert _ _ s h2, replace_inert _ _ s h3]

/-- After the worker has entered a whitespace run, its output starts with
a non-whitespace character. -/
theorem headNotWs_collapseAux_true :
    ∀ cs, headNotWs (collapseAux true cs) = true := by
  intro cs
  induction cs with
  | nil => rfl
  | cons c cs ih =>
    by_cases hw : isWs c
    · simp [collapseAux, hw, ih]
    · simp [collapseAux, hw, headNotWs]

/-- The output of the whitespace-collapse worker is in collapsed form. -/
theorem collapsedB_collapseAux :
    ∀ (s : List Char) (b : Bool), collapsedB (collapseAux b s) = true := by
  intro s
  induction s with
  | nil => intro b; rfl
  | cons c cs ih =>
    intro b
    by_cases hw : isWs c
    · cases b with
      | true => simp [collapseAux, hw, ih true]
      | false =>
        have hstep : collapseAux false (c :: cs) = ' ' :: collapseAux true cs := by
          simp [collapseAux, hw]
        rw [hstep]
        simp only [collapsedB, Bool.and_eq_true]
        refine ⟨?_, ih true⟩
        rw [headNotWs_collapseAux_true]
        simp
    · simp [collapseAux, hw, collapsedB, ih false]

/-- On a string starting with a non-whitespace character the worker's
in-run flag is irrelevant. -/
theorem collapseAux_true_eq_false (s : List Char) (h : headNotWs s = true) :
    collapseAux true s = collapseAux false s := by
  cases s with
  | nil => rfl
  | cons c cs =>
    simp only [headNotWs, List.head?_cons, Bool.not_eq_true'] at h
    simp [collapseAux, h]

/-- A string in collapsed form is a fixed point of the whitespace
collapse. -/
theorem collapseAux_fixed :
    ∀ s, collapsedB s = true → collapseAux false s = s := by
  intro s
  induction s with
  | nil => intro _; rfl
  | cons c cs ih =>
    intro h
    simp only [collapsedB, Bool.and_eq_true] at h
    obtain ⟨h1, h2⟩ := h
    by_cases hw : isWs c
    · have h1' : (c == ' ' && headNotWs cs) = true := by
        rcases Bool.or_eq_true_iff.mp h1 with hh | hh
        · rw [hw] at hh; exact absurd hh (by simp)
        · exact hh
      rw [Bool.and_eq_true] at h1'
      obtain ⟨hc, hh⟩ := h1'
      have hc' : c = ' ' := eq_of_beq hc
      have hstep : collapseAux false (c :: cs) = ' ' :: collapseAux true cs := by
        simp [collapseAux, hw]
      rw [hstep, collapseAux_true_eq_false cs hh, ih h2, hc']
    · simp [collapseAux, hw, ih h2]

/-- Removing trailing whitespace preserves the head of a non-empty
result. -/
theorem trimRight_head (s : List Char) (h : trimRight s ≠ []) :
    (trimRight s).head? = s.head? := by
  cases s with
  | nil => simp [trimRight]
  | cons c cs =>
    simp only [trimRight] at h ⊢
    by_cases hcond : (trimRight cs = [] ∧ isWs c)
    · rw [if_pos hcond] at h; exact absurd rfl h
    · rw [if_neg hcond]; rfl

/-- Removing trailing whitespace is idempotent. -/
theorem trimRight_idem : ∀ s : List Char, trimRight (trimRight s) = trimRight s := by
  intro s
  induction s with
  | nil => rfl
  | cons c cs ih =>
    simp only [trimRight]
    by_cases hcond : (trimRight cs = [] ∧ isWs c)
    · rw [if_pos hcond]; rfl
    · rw [if_neg hcond]
      simp only [trimRight, ih]
      rw [if_neg hcond]

/-- Removing trailing whitespace preserves a non-whitespace head. -/
theorem headNotWs_trimRight (s : List Char) (h : headNotWs s = true) :
    headNotWs (trimRight s) = true := by
  cases s with
  | nil => rfl
  | cons c cs =>
    simp only [trimRight]
    by_cases hcond : (trimRight cs = [] ∧ isWs c)
    · rw [if_pos hcond]; rfl
    · rw [if_neg hcond]
      simpa [headNotWs] using h

/-- Removing trailing whitespace preserves collapsed form. -/
theorem collapsedB_trimRight :
    ∀ s, collapsedB s = true → collapsedB (trimRight s) = true := by
  intro s
  induction s with
  | nil => intro _; rfl
  | cons c cs ih =>
    intro h
    simp only [collapsedB, Bool.and_eq_true] at h
    obtain ⟨h1, h2⟩ := h
    simp only [trimRight]
    by_cases hcond : (trimRight cs = [] ∧ isWs c)
    · rw [if_pos hcond]; rfl
    · rw [if_neg hcond]
      simp only [collapsedB, Bool.and_eq_true]
      refine ⟨?_, ih h2⟩
      by_cases hw : isWs c
      · have h1' : (c == ' ' && headNotWs cs) = true := by
          rcases Bool.or_eq_true_iff.mp h1 with hh | hh
          · rw [hw] at hh; exact absurd hh (by simp)
          · exact hh
        rw [Bool.and_eq_true] at h1'
        obtain ⟨hc, hh⟩ := h1'
        have hne : trimRight cs ≠ [] := by
          intro hnil
          exact hcond ⟨hnil, hw⟩
        have : headNotWs (trimRight cs) = true := by
          unfold headNotWs at hh ⊢
          rw [trimRight_head cs hne]
          exact hh
        simp [hc, this]
      · simp [hw]

/-- Dropping leading whitespace leaves a non-whitespace head. -/
theorem headNotWs_dropWhile :
    ∀ s : List Char, headNotWs (s.dropWhile isWs) = true := by
  intro s
  induction s with
  | nil => rfl
  | cons c cs ih =>
    by_cases hw : isWs c
    · rw [List.dropWhile_cons_of_pos hw]; exact ih
    · rw [List.dropWhile_cons_of_neg hw]
      simp [headNotWs, hw]

/-- A string with a non-whitespace head loses nothing to the leading
trim. -/
theorem dropWhile_headNotWs (s : List Char) (h : headNotWs s = true) :
    s.dropWhile isWs = s := by
  cases s with
  | nil => rfl
  | cons c cs =>
    simp only [headNotWs, List.head?_cons, Bool.not_eq_true'] at h
    rw [List.dropWhile_cons_of_neg (by simp [h])]

/-- Dropping leading whitespace preserves collapsed form. -/
theorem collapsedB_dropWhile :
    ∀ s, collapsedB s = true → collapsedB (s.dropWhile isWs) = true := by
  intro s
  induction s with
  | nil => intro _; rfl
  | cons c cs ih =>
    intro h
    simp only [collapsedB, Bool.and_eq_true] at h
    by_cases hw : isWs c
    · rw [List.dropWhile_cons_of_pos hw]
      exact ih h.2
    · rw [List.dropWhile_cons_of_neg hw]
      simp only [collapsedB, Bool.and_eq_true]
      exact h

/-- The full trim is idempotent. -/
theorem trimChars_idem (s : List Char) :
    trimChars (trimChars s) = trimChars s := by
  unfold trimChars
  rw [dropWhile_headNotWs _ (headNotWs_trimRight _ (headNotWs_dropWhile s)),
    trimRight_idem]

/-! ## Claim theorems for the normalization -/

/-- C6 counterexample: the date normalization is not idempotent — on the
double-encoded input `&amp;amp;` one pass yields `&amp;` and a second
pass decodes it further to `&`, because the chained `replace` calls can
leave a fresh `&amp;` token in their own output. -/
theorem normalize_not_idempotent :
    normalizeDate (normalizeDate ("&amp;amp;".toList)) ≠
      normalizeDate ("&amp;amp;".toList) := by decide

/-- C6 (amended): the normalization is idempotent on every input whose
first normalization contains no residual `<br>`, `&amp;` or `&nbsp;`
token (in particular on all singly-encoded markup); the whitespace
collapse and the trim are unconditionally stable under repetition. -/
theorem normalize_idem_amended (s : List Char)
    (h1 : containsTok ("<br>".toList) (normalizeDate s) = false)
    (h2 : containsTok ("&amp;".toList) (normalizeDate s) = false)
    (h3 : containsTok ("&nbsp;".toList) (normalizeDate s) = false) :
    normalizeDate (normalizeDate s) = normalizeDate s := by
  have hcol : collapsedB (normalizeDate s) = true := by
    unfold normalizeDate collapseWs
    exact collapsedB_trimRight _
      (collapsedB_dropWhile _ (collapsedB_collapseAux _ false))
  have hsub : substEntities (normalizeDate s) = normalizeDate s :=
    substEntities_inert _ h1 h2 h3
  have hcw : collapseWs (normalizeDate s) = normalizeDate s := by
    unfold collapseWs
    exact collapseAux_fixed _ hcol
  have hstep : normalizeDate (normalizeDate s) = trimChars (normalizeDate s) := by
    show trimChars (collapseWs (substEntities (normalizeDate s))) =
      trimChars (normalizeDate s)
    rw [hsub, hcw]
  rw [hstep]
  show trimChars (trimChars (collapseWs (substEntities s))) = _
  rw [trimChars_idem]
  rfl

/-- C6 witness: instantiating `normalize_idem_amended` on a
singly-encoded date fragment with redundant whitespace. -/
theorem normalize_idem_amended_witness :
    normalizeDate (normalizeDate (" May  1&nbsp;and 2 ".toList)) =
      normalizeDate (" May  1&nbsp;and 2 ".toList) :=
  normalize_idem_amended (" May  1&nbsp;and 2 ".toList)
    (by decide) (by decide) (by decide)

end RustScrapper
